import Mathlib

/-!
Verification development for the letsencrypt-aws renewal tool
(src/letsencrypt-aws.py). The Python source is shallowly embedded:
pure helpers become Lean functions, and the effectful renewal flow is
modelled as explicit state passing over an abstract environment `Env`
that stands for the external collaborators (certificate authority
client, DNS provider client, key generator). Every externally visible
action is recorded as an `Event` in a trace, and Python exceptions are
modelled with `Except Err`.

Logging calls (`logger.emit`) and the unused parameters of the source
functions (`force_issue`, `listener`, `cert_only`, `create_listener`,
`elb_client`, `iam_client`) are omitted: the source never branches on
them inside the renewal path.
-/

/-- Errors raised by the embedded code. `invalidKeyType` is the
ValueError raised for an unknown key_type, `indexError` is the Python
IndexError from `hosts[0]` on an empty list, `destructureError` is the
ValueError raised when `[dns_challenge] = find_dns_challenge(authz)`
does not unpack exactly one element, `failedVerification` is the
ValueError from `complete_dns_challenge`, and `external` stands for an
exception raised by an external client call. -/
inductive Err where
  | invalidKeyType (kt : String)
  | indexError
  | destructureError
  | failedVerification
  | external (msg : String)
deriving DecidableEq, Repr

/-- A hosted zone as returned by the paginated listing: pagination is
flattened into a single list, preserving iteration order. -/
structure Zone where
  name : String
  id : String
deriving DecidableEq, Repr

/-- Python `s.endswith(suffix)`: the character sequence of `suffix` is
a suffix of the character sequence of `s`. -/
def pyEndsWith (s suffix : String) : Bool :=
  List.isSuffixOf suffix.data s.data

/-- The matching condition from the body of `find_zone_id_for_domain`:
`domain.endswith(zone["Name"]) or (domain + ".").endswith(zone["Name"])`. -/
def zoneMatches (domain : String) (zone : Zone) : Bool :=
  pyEndsWith domain zone.name || pyEndsWith (domain ++ ".") zone.name

/-- Embedding of `find_zone_id_for_domain`: walk the zones in iteration
order and return the id of the first zone satisfying the match
condition; `none` models the implicit `return None` fall-through. -/
def find_zone_id_for_domain (zones : List Zone) (domain : String) : Option String :=
  match zones with
  | [] => none
  | zone :: rest =>
      if zoneMatches domain zone then some zone.id
      else find_zone_id_for_domain rest domain

/-- One element of a resolved challenge combination, as consumed by
`find_dns_challenge` and the challenge flow. `isDns01` embeds the
`isinstance(combo[0].chall, acme.challenges.DNS01)` test; `token`
identifies the challenge; `vdn` and `validation` are the library
functions `validation_domain_name(host)` and `validation(key)`,
abstract but deterministic. -/
structure DnsChallenge where
  isDns01 : Bool
  token : String
  vdn : String → String
  validation : String → String

/-- An authorization returned by `request_domain_challenges`, reduced to
the field the source reads: `authz.body.resolved_combinations`. -/
structure Authz where
  resolved_combinations : List (List DnsChallenge)

/-- Embedding of `find_dns_challenge`: the generator yields `combo[0]`
for every combination of length exactly one whose sole challenge is a
DNS01 challenge. -/
def find_dns_challenge (authz : Authz) : List DnsChallenge :=
  authz.resolved_combinations.filterMap fun combo =>
    match combo with
    | [c] => if c.isDns01 then some c else none
    | _ => none

/-- Embedding of the `AuthorizationRecord` class. `route53_zone_id` is
an `Option` because `find_zone_id_for_domain` can return `None` and the
source stores the result unchecked. -/
structure AuthorizationRecord where
  host : String
  authz : Authz
  dns_challenge : DnsChallenge
  route53_change_id : String
  route53_zone_id : Option String

/-- Externally visible actions of one run, in program order. A
`dnsChange` event records a `change_resource_record_sets` call exactly
as transmitted: action, hosted zone id, record name, and the (quoted)
TXT value. `keyWrite` and `fullchainWrite` are the two file writes,
each overwriting the whole file at the given path. -/
inductive Event where
  | keyWrite (path : String) (pem : String)
  | dnsChange (action : String) (zoneId : Option String) (name : String) (value : String)
  | waitRoute53 (changeId : String)
  | localVerify (host : String) (ok : Bool)
  | answerChallenge (host : String)
  | requestCert
  | fullchainWrite (path : String) (content : String)
deriving DecidableEq, Repr

/-- The certificate signing request produced by `generate_csr`, reduced
to the attributes the source sets: subject common name, the subject
alternative name entries, the critical flag of that extension, and the
key the CSR is signed with. -/
structure CSRData where
  common_name : String
  san : List String
  san_critical : Bool
  signed_with : String
deriving DecidableEq, Repr

/-- Embedding of `generate_csr`. `hosts[0]` raises IndexError on an
empty list; otherwise the builder sets common name `hosts[0]` and a
non-critical SAN extension listing every host in order. -/
def generate_csr (private_key : String) (hosts : List String) : Except Err CSRData :=
  match hosts with
  | [] => .error .indexError
  | h :: _ => .ok { common_name := h, san := hosts,
                    san_critical := false, signed_with := private_key }

/-- The abstract environment: responses of the external collaborators.
`genKey kt` is the PEM serialization of the freshly generated private
key of the given type; `requestChall` is `request_domain_challenges`;
`changeRecord action zoneId name value` is the provider response to a
`change_resource_record_sets` call (the returned change id, or an
exception); `answer` is `answer_challenge` for a host; `simpleVerify
token host` is the boolean result of `response.simple_verify(chall,
host, key.public_key())`; `issue csr` is the outcome of
`poll_and_request_issuance` plus `fetch_chain`, returning the leaf PEM
and the chain PEM. `accountKey` stands for `acme_client.key`. -/
structure Env where
  zones : List Zone
  accountKey : String
  genKey : String → String
  requestChall : String → Except Err Authz
  changeRecord : String → Option String → String → String → Except Err String
  answer : String → Except Err Unit
  simpleVerify : String → String → Bool
  issue : CSRData → Except Err (String × String)

/-- The manual TXT quoting applied in `change_txt_record`:
`'"{}"'.format(value)`. -/
def quoteTxt (value : String) : String := "\"" ++ value ++ "\""

/-- Embedding of `change_txt_record`: the call is issued (one
`dnsChange` event with the quoted value) and the provider either
returns a change id or raises. -/
def change_txt_record (env : Env) (action : String) (zone_id : Option String)
    (domain : String) (value : String) : List Event × Except Err String :=
  ([Event.dnsChange action zone_id domain (quoteTxt value)],
   env.changeRecord action zone_id domain (quoteTxt value))

/-- Embedding of `start_dns_challenge` for one host: request the
authorization, destructure the unique single-challenge DNS01
combination, resolve the zone (unchecked), create the TXT record at
the validation domain name with the validation value, and build the
AuthorizationRecord. -/
def start_dns_challenge (env : Env) (host : String) :
    List Event × Except Err AuthorizationRecord :=
  match env.requestChall host with
  | .error e => ([], .error e)
  | .ok authz =>
    match find_dns_challenge authz with
    | [dns_challenge] =>
        let zone_id := find_zone_id_for_domain env.zones host
        let step := change_txt_record env "CREATE" zone_id
          (dns_challenge.vdn host) (dns_challenge.validation env.accountKey)
        match step.2 with
        | .error e => (step.1, .error e)
        | .ok change_id =>
            (step.1, .ok ⟨host, authz, dns_challenge, change_id, zone_id⟩)
    | _ => ([], .error .destructureError)

/-- Embedding of `complete_dns_challenge` for one AuthorizationRecord:
wait for the route53 change, recompute the response, verify it locally,
raise on mismatch, and only then answer the challenge. The unbounded
INSYNC polling loop is modelled as a single blocking wait that returns. -/
def complete_dns_challenge (env : Env) (ar : AuthorizationRecord) :
    List Event × Except Err Unit :=
  match env.simpleVerify ar.dns_challenge.token ar.host with
  | true =>
      ([Event.waitRoute53 ar.route53_change_id,
        Event.localVerify ar.host true,
        Event.answerChallenge ar.host],
       env.answer ar.host)
  | false =>
      ([Event.waitRoute53 ar.route53_change_id,
        Event.localVerify ar.host false],
       .error .failedVerification)

/-- The first loop of the `try` block in `update_elb`: run
`start_dns_challenge` for each host in order, appending each
AuthorizationRecord to the list as soon as it is returned; the first
exception stops the loop. Returns the emitted events, the accumulated
records, and the error if one was raised. -/
def startChallenges (env : Env) (hosts : List String) :
    List Event × List AuthorizationRecord × Option Err :=
  match hosts with
  | [] => ([], [], none)
  | host :: rest =>
      match start_dns_challenge env host with
      | (tr, .error e) => (tr, [], some e)
      | (tr, .ok ar) =>
          match startChallenges env rest with
          | (trNext, ars, err) => (tr ++ trNext, ar :: ars, err)

/-- The second loop of the `try` block: run `complete_dns_challenge` on
each accumulated record in order; the first exception stops the loop. -/
def completeChallenges (env : Env) (ars : List AuthorizationRecord) :
    List Event × Option Err :=
  match ars with
  | [] => ([], none)
  | ar :: rest =>
      match complete_dns_challenge env ar with
      | (tr, .error e) => (tr, some e)
      | (tr, .ok _) =>
          match completeChallenges env rest with
          | (trNext, err) => (tr ++ trNext, err)

/-- The whole `try` block of `update_elb`: publish every challenge,
complete every challenge, request the certificate
(`request_certificate`), and write the full chain file. Returns the
events, the AuthorizationRecords accumulated so far, and the first
error raised, if any. -/
def update_elb_try (env : Env) (hosts : List String) (csr : CSRData)
    (fullchain_path : String) :
    List Event × List AuthorizationRecord × Option Err :=
  match startChallenges env hosts with
  | (trS, ars, some e) => (trS, ars, some e)
  | (trS, ars, none) =>
      match completeChallenges env ars with
      | (trC, some e) => (trS ++ trC, ars, some e)
      | (trC, none) =>
          match env.issue csr with
          | .error e => (trS ++ trC ++ [Event.requestCert], ars, some e)
          | .ok (pem_certificate, pem_certificate_chain) =>
              (trS ++ trC ++
                [Event.requestCert,
                 Event.fullchainWrite fullchain_path
                   (pem_certificate ++ pem_certificate_chain)],
               ars, none)

/-- The `finally` block of `update_elb`: issue a DELETE
`change_txt_record` for each accumulated record, with the stored
zone id of the record and the recomputed validation domain name and validation
value. There is no handler inside the loop: an exception raised by one
DELETE call propagates and the remaining records are not processed. -/
def cleanupRecords (env : Env) (ars : List AuthorizationRecord) :
    List Event × Option Err :=
  match ars with
  | [] => ([], none)
  | ar :: rest =>
      match change_txt_record env "DELETE" ar.route53_zone_id
          (ar.dns_challenge.vdn ar.host)
          (ar.dns_challenge.validation env.accountKey) with
      | (tr, .error e) => (tr, some e)
      | (tr, .ok _) =>
          match cleanupRecords env rest with
          | (trNext, err) => (tr ++ trNext, err)

/-- Embedding of `update_elb`: dispatch on `key_type` (raising before
any side effect on an unknown type), write the fresh private key to
`privatekey_path`, build the CSR (`hosts[0]` raising on an empty host
list), then run the `try` block and, on every exit path, the `finally`
cleanup. Python `finally` semantics: an exception raised during cleanup
replaces the pending exception of the `try` block. -/
def update_elb (env : Env) (hosts : List String) (key_type : String)
    (fullchain_path privatekey_path : String) : List Event × Except Err Unit :=
  if key_type = "rsa" ∨ key_type = "ecdsa" then
    let private_key := env.genKey key_type
    match generate_csr private_key hosts with
    | .error e => ([Event.keyWrite privatekey_path private_key], .error e)
    | .ok csr =>
        match update_elb_try env hosts csr fullchain_path with
        | (trT, ars, errT) =>
            match cleanupRecords env ars with
            | (trC, errC) =>
                ([Event.keyWrite privatekey_path private_key] ++ trT ++ trC,
                 match errC with
                 | some e => .error e
                 | none =>
                     match errT with
                     | some e => .error e
                     | none => .ok ())
  else ([], .error (.invalidKeyType key_type))

/-- The AuthorizationRecords accumulated by a run of `update_elb` with
the same arguments: empty when the run raises before the `try` block,
otherwise the records collected by the `try` block. -/
def update_elb_records (env : Env) (hosts : List String) (key_type : String)
    (fullchain_path : String) : List AuthorizationRecord :=
  if key_type = "rsa" ∨ key_type = "ecdsa" then
    match generate_csr (env.genKey key_type) hosts with
    | .error _ => []
    | .ok csr => (update_elb_try env hosts csr fullchain_path).2.1
  else []

/-- One entry of the `domains` configuration list, reduced to the
fields `update_elbs` reads: `domain["elb"]["name"]`, `domain["hosts"]`,
and the optional `domain.get("key_type", "rsa")`. -/
structure DomainEntry where
  elb_name : String
  hosts : List String
  key_type : Option String

/-- Embedding of `update_elbs`: a plain loop calling `update_elb` for
each domain entry in order, with no exception handler, so an exception
raised for one entry propagates and ends the loop. -/
def update_elbs (env : Env) (domains : List DomainEntry)
    (fullchain_path privatekey_path : String) : List Event × Except Err Unit :=
  match domains with
  | [] => ([], .ok ())
  | d :: rest =>
      match update_elb env d.hosts (d.key_type.getD "rsa")
          fullchain_path privatekey_path with
      | (tr, .error e) => (tr, .error e)
      | (tr, .ok _) =>
          match update_elbs env rest fullchain_path privatekey_path with
          | (trNext, r) => (tr ++ trNext, r)

/-- The CREATE event issued for an AuthorizationRecord produced by
`start_dns_challenge`: zone id as stored in the record, record name the
validation domain name of the host, value the quoted validation value. -/
def createUpsert (env : Env) (ar : AuthorizationRecord) : Event :=
  Event.dnsChange "CREATE" ar.route53_zone_id
    (ar.dns_challenge.vdn ar.host)
    (quoteTxt (ar.dns_challenge.validation env.accountKey))

/-- The DELETE event issued for an AuthorizationRecord during cleanup:
same zone id, record name and value as the matching CREATE event. -/
def deleteUpsert (env : Env) (ar : AuthorizationRecord) : Event :=
  Event.dnsChange "DELETE" ar.route53_zone_id
    (ar.dns_challenge.vdn ar.host)
    (quoteTxt (ar.dns_challenge.validation env.accountKey))

/-- Recognizer for DELETE upsert events in a trace. -/
def isDeleteUpsert : Event → Bool
  | Event.dnsChange action _ _ _ => action = "DELETE"
  | _ => false

/-- Modelled from the spec (zone-resolution invariant): the zone whose
name is the longest suffix match of the queried domain among all
visible zones. Used only as the comparison point for the refinement
claim about `find_zone_id_for_domain`. -/
def resolveLongestMatch (zones : List Zone) (domain : String) : Option Zone :=
  (zones.filter (zoneMatches domain)).foldl
    (fun best z =>
      match best with
      | none => some z
      | some b => if b.name.length < z.name.length then some z else some b)
    none

/-- Projection of a `start_dns_challenge` result: `some` of the stored
zone id when the call succeeded, `none` when it raised. -/
def okZoneId (r : Except Err AuthorizationRecord) : Option (Option String) :=
  match r with
  | .ok ar => some ar.route53_zone_id
  | .error _ => none

/-- A concrete DNS01 challenge used in the concrete evaluations below. -/
def cChall : DnsChallenge :=
  ⟨true, "tok", fun h => "_ac." ++ h, fun k => "val-" ++ k⟩

/-- A concrete authorization offering exactly one single-challenge
DNS01 combination. -/
def cAuthz : Authz := ⟨[[cChall]]⟩

/-- A concrete authorization offering two single-challenge DNS01
combinations. -/
def cAuthzTwo : Authz := ⟨[[cChall], [cChall]]⟩

/-- A fully successful concrete environment: one hosted zone and every
external call succeeds. -/
def cEnv : Env :=
  { zones := [⟨"example.com.", "Z1"⟩]
    accountKey := "AK"
    genKey := fun kt => "PEM-" ++ kt
    requestChall := fun _ => .ok cAuthz
    changeRecord := fun _ _ _ _ => .ok "CID"
    answer := fun _ => .ok ()
    simpleVerify := fun _ _ => true
    issue := fun _ => .ok ("CERT", "CHAIN") }

/-- Like `cEnv` but the challenge request for host b.example.com fails. -/
def cEnvReqFail : Env :=
  { cEnv with requestChall := fun h =>
      if h = "b.example.com" then .error (.external "down") else .ok cAuthz }

/-- Like `cEnv` but no hosted zone matches the queried hosts. -/
def cEnvNoZone : Env := { cEnv with zones := [⟨"org.", "Zorg"⟩] }

/-- Like `cEnv` but every DELETE record change fails. -/
def cEnvDelFail : Env :=
  { cEnv with changeRecord := fun action _ _ _ =>
      if action = "DELETE" then .error (.external "delfail") else .ok "CID" }

/-- Like `cEnv` but local verification always fails. -/
def cEnvVerifyFail : Env := { cEnv with simpleVerify := fun _ _ => false }

/-- Like `cEnv` but every authorization offers two DNS01 combinations. -/
def cEnvTwoCombos : Env := { cEnv with requestChall := fun _ => .ok cAuthzTwo }

/-- A concrete AuthorizationRecord for host a.example.com in zone Z1. -/
def carA : AuthorizationRecord := ⟨"a.example.com", cAuthz, cChall, "CID", some "Z1"⟩

/-- A second concrete AuthorizationRecord, for host b.example.com in
zone Z2. -/
def carB : AuthorizationRecord := ⟨"b.example.com", cAuthz, cChall, "CID2", some "Z2"⟩

/-- A concrete zone list ordered least-specific first, on which first
match and longest match disagree. -/
def czones : List Zone := [⟨"com.", "Zcom"⟩, ⟨"example.com.", "Zex"⟩]

/-- A concrete domain entry with an unsupported key type. -/
def dBad : DomainEntry := ⟨"elb-1", ["a.example.com"], some "dsa"⟩

/-- A concrete well-formed domain entry. -/
def dGood : DomainEntry := ⟨"elb-2", ["a.example.com"], none⟩

theorem start_dns_challenge_ok_trace (env : Env) (host : String)
    (ar : AuthorizationRecord) :
    (start_dns_challenge env host).2 = .ok ar →
    (start_dns_challenge env host).1 = [createUpsert env ar] := by
  unfold start_dns_challenge change_txt_record
  generalize env.requestChall host = rq
  cases rq with
  | error e => simp
  | ok authz =>
    dsimp only
    generalize find_dns_challenge authz = fd
    cases fd with
    | nil => simp
    | cons c cs =>
      cases cs with
      | nil =>
        dsimp only
        generalize env.changeRecord "CREATE" (find_zone_id_for_domain env.zones host)
            (c.vdn host) (quoteTxt (c.validation env.accountKey)) = cr
        cases cr with
        | error e => simp
        | ok cid =>
          intro h
          simp only [Except.ok.injEq] at h
          subst h
          rfl
      | cons c2 cs2 => simp

theorem start_dns_challenge_events_shape (env : Env) (host : String) :
    ∀ e ∈ (start_dns_challenge env host).1,
      ∃ z n v, e = Event.dnsChange "CREATE" z n v := by
  unfold start_dns_challenge change_txt_record
  generalize env.requestChall host = rq
  cases rq with
  | error e => simp
  | ok authz =>
    dsimp only
    generalize find_dns_challenge authz = fd
    cases fd with
    | nil => simp
    | cons c cs =>
      cases cs with
      | nil =>
        dsimp only
        generalize env.changeRecord "CREATE" (find_zone_id_for_domain env.zones host)
            (c.vdn host) (quoteTxt (c.validation env.accountKey)) = cr
        cases cr with
        | error e =>
          intro ev hev
          simp only [List.mem_singleton] at hev
          exact ⟨_, _, _, hev⟩
        | ok cid =>
          intro ev hev
          simp only [List.mem_singleton] at hev
          exact ⟨_, _, _, hev⟩
      | cons c2 cs2 => simp

theorem startChallenges_events_shape (env : Env) :
    ∀ hosts : List String, ∀ e ∈ (startChallenges env hosts).1,
      ∃ z n v, e = Event.dnsChange "CREATE" z n v := by
  intro hosts
  induction hosts with
  | nil => simp [startChallenges]
  | cons host rest ih =>
    have hshape := start_dns_challenge_events_shape env host
    unfold startChallenges
    generalize hsp : start_dns_challenge env host = p
    rw [hsp] at hshape
    obtain ⟨tr, r⟩ := p
    cases r with
    | error e =>
      dsimp only
      exact hshape
    | ok ar0 =>
      generalize hnext : startChallenges env rest = q
      rw [hnext] at ih
      obtain ⟨trNext, ars, err⟩ := q
      dsimp only
      intro ev hev
      rcases List.mem_append.mp hev with h1 | h2
      · exact hshape ev h1
      · exact ih ev h2

theorem startChallenges_records_mem (env : Env) :
    ∀ hosts : List String, ∀ ar ∈ (startChallenges env hosts).2.1,
      createUpsert env ar ∈ (startChallenges env hosts).1 := by
  intro hosts
  induction hosts with
  | nil => simp [startChallenges]
  | cons host rest ih =>
    have hshape := start_dns_challenge_ok_trace env host
    unfold startChallenges
    generalize hsp : start_dns_challenge env host = p
    rw [hsp] at hshape
    obtain ⟨tr, r⟩ := p
    cases r with
    | error e => simp
    | ok ar0 =>
      generalize hnext : startChallenges env rest = q
      rw [hnext] at ih
      obtain ⟨trNext, ars, err⟩ := q
      dsimp only
      intro ar har
      rcases List.mem_cons.mp har with h1 | h2
      · subst h1
        have htr : tr = [createUpsert env ar] := hshape ar rfl
        rw [htr]
        simp
      · exact List.mem_append_right _ (ih ar h2)

theorem complete_dns_challenge_events_shape (env : Env) (ar : AuthorizationRecord) :
    ∀ e ∈ (complete_dns_challenge env ar).1,
      (∃ c, e = Event.waitRoute53 c) ∨ (∃ h b, e = Event.localVerify h b) ∨
      (∃ h, e = Event.answerChallenge h) := by
  unfold complete_dns_challenge
  generalize env.simpleVerify ar.dns_challenge.token ar.host = v
  cases v with
  | true =>
    intro e he
    dsimp only at he
    simp only [List.mem_cons, List.not_mem_nil, or_false] at he
    rcases he with h | h | h
    · exact Or.inl ⟨_, h⟩
    · exact Or.inr (Or.inl ⟨_, _, h⟩)
    · exact Or.inr (Or.inr ⟨_, h⟩)
  | false =>
    intro e he
    dsimp only at he
    simp only [List.mem_cons, List.not_mem_nil, or_false] at he
    rcases he with h | h
    · exact Or.inl ⟨_, h⟩
    · exact Or.inr (Or.inl ⟨_, _, h⟩)

theorem completeChallenges_events_shape (env : Env) :
    ∀ ars : List AuthorizationRecord, ∀ e ∈ (completeChallenges env ars).1,
      (∃ c, e = Event.waitRoute53 c) ∨ (∃ h b, e = Event.localVerify h b) ∨
      (∃ h, e = Event.answerChallenge h) := by
  intro ars
  induction ars with
  | nil => simp [completeChallenges]
  | cons ar rest ih =>
    have hshape := complete_dns_challenge_events_shape env ar
    unfold completeChallenges
    generalize hsp : complete_dns_challenge env ar = p
    rw [hsp] at hshape
    obtain ⟨tr, r⟩ := p
    cases r with
    | error e =>
      dsimp only
      exact hshape
    | ok u =>
      generalize hnext : completeChallenges env rest = q
      rw [hnext] at ih
      obtain ⟨trNext, err⟩ := q
      dsimp only
      intro ev hev
      rcases List.mem_append.mp hev with h1 | h2
      · exact hshape ev h1
      · exact ih ev h2

theorem cleanupRecords_events_shape (env : Env) :
    ∀ ars : List AuthorizationRecord, ∀ e ∈ (cleanupRecords env ars).1,
      ∃ z n v, e = Event.dnsChange "DELETE" z n v := by
  intro ars
  induction ars with
  | nil => simp [cleanupRecords]
  | cons ar rest ih =>
    unfold cleanupRecords change_txt_record
    generalize env.changeRecord "DELETE" ar.route53_zone_id (ar.dns_challenge.vdn ar.host)
        (quoteTxt (ar.dns_challenge.validation env.accountKey)) = cr
    cases cr with
    | error e =>
      dsimp only
      intro ev hev
      simp only [List.mem_singleton] at hev
      exact ⟨_, _, _, hev⟩
    | ok cid =>
      generalize hnext : cleanupRecords env rest = q
      rw [hnext] at ih
      obtain ⟨trNext, err⟩ := q
      dsimp only
      intro ev hev
      rcases List.mem_cons.mp hev with h1 | h2
      · exact ⟨_, _, _, h1⟩
      · exact ih ev h2

theorem cleanupRecords_deletes_ok (env : Env)
    (hDel : ∀ z n v, ∃ cid, env.changeRecord "DELETE" z n v = .ok cid) :
    ∀ ars : List AuthorizationRecord,
      cleanupRecords env ars = (ars.map (deleteUpsert env), none) := by
  intro ars
  induction ars with
  | nil => simp [cleanupRecords]
  | cons ar rest ih =>
    obtain ⟨cid, hcid⟩ := hDel ar.route53_zone_id (ar.dns_challenge.vdn ar.host)
      (quoteTxt (ar.dns_challenge.validation env.accountKey))
    unfold cleanupRecords change_txt_record
    rw [hcid, ih]
    simp [deleteUpsert]

theorem update_elb_try_records (env : Env) (hosts : List String)
    (csr : CSRData) (fullchain_path : String) :
    (update_elb_try env hosts csr fullchain_path).2.1
      = (startChallenges env hosts).2.1 := by
  unfold update_elb_try
  generalize startChallenges env hosts = p
  obtain ⟨trS, ars, err⟩ := p
  cases err with
  | some e => rfl
  | none =>
    dsimp only
    generalize completeChallenges env ars = q
    obtain ⟨trC, errC⟩ := q
    cases errC with
    | some e => rfl
    | none =>
      dsimp only
      generalize env.issue csr = r
      cases r with
      | error e => rfl
      | ok pair => obtain ⟨cert, chain⟩ := pair; rfl

theorem startChallenges_trace_sub_try (env : Env) (hosts : List String)
    (csr : CSRData) (fullchain_path : String) :
    ∀ e ∈ (startChallenges env hosts).1,
      e ∈ (update_elb_try env hosts csr fullchain_path).1 := by
  unfold update_elb_try
  generalize startChallenges env hosts = p
  obtain ⟨trS, ars, err⟩ := p
  cases err with
  | some e => dsimp only; intro ev hev; exact hev
  | none =>
    dsimp only
    generalize completeChallenges env ars = q
    obtain ⟨trC, errC⟩ := q
    cases errC with
    | some e => dsimp only; intro ev hev; exact List.mem_append_left _ hev
    | none =>
      dsimp only
      generalize env.issue csr = r
      cases r with
      | error e =>
        dsimp only
        intro ev hev
        exact List.mem_append_left _ (List.mem_append_left _ hev)
      | ok pair =>
        obtain ⟨cert, chain⟩ := pair
        dsimp only
        intro ev hev
        exact List.mem_append_left _ (List.mem_append_left _ hev)

theorem update_elb_try_no_delete (env : Env) (hosts : List String)
    (csr : CSRData) (fullchain_path : String) :
    ∀ e ∈ (update_elb_try env hosts csr fullchain_path).1,
      isDeleteUpsert e = false := by
  have hS := startChallenges_events_shape env hosts
  unfold update_elb_try
  generalize hgen : startChallenges env hosts = p
  rw [hgen] at hS
  obtain ⟨trS, ars, err⟩ := p
  have htrS : ∀ e ∈ trS, isDeleteUpsert e = false := by
    intro e he
    obtain ⟨z, n, v, hzv⟩ := hS e he
    subst hzv
    rfl
  cases err with
  | some e => exact htrS
  | none =>
    dsimp only
    have hCa := completeChallenges_events_shape env ars
    generalize hgenC : completeChallenges env ars = q
    rw [hgenC] at hCa
    obtain ⟨trC, errC⟩ := q
    have htrC : ∀ e ∈ trC, isDeleteUpsert e = false := by
      intro e he
      rcases hCa e he with ⟨c, hc⟩ | ⟨h, b, hc⟩ | ⟨h, hc⟩ <;> subst hc <;> rfl
    cases errC with
    | some e =>
      dsimp only
      intro ev hev
      rcases List.mem_append.mp hev with h1 | h2
      · exact htrS ev h1
      · exact htrC ev h2
    | none =>
      dsimp only
      generalize env.issue csr = r
      cases r with
      | error e =>
        dsimp only
        intro ev hev
        rcases List.mem_append.mp hev with h1 | h2
        · rcases List.mem_append.mp h1 with h3 | h4
          · exact htrS ev h3
          · exact htrC ev h4
        · simp only [List.mem_singleton] at h2
          subst h2
          rfl
      | ok pair =>
        obtain ⟨cert, chain⟩ := pair
        dsimp only
        intro ev hev
        rcases List.mem_append.mp hev with h1 | h2
        · rcases List.mem_append.mp h1 with h3 | h4
          · exact htrS ev h3
          · exact htrC ev h4
        · simp only [List.mem_cons, List.not_mem_nil, or_false] at h2
          rcases h2 with h3 | h3 <;> subst h3 <;> rfl

/-- Any fullchain write in the try-block trace comes from a successful
issuance: the written path is the configured fullchain path and the
content is the leaf certificate followed by the chain. -/
theorem update_elb_try_fullchain (env : Env) (hosts : List String)
    (csr : CSRData) (fullchain_path : String) (p : String) (c : String) :
    Event.fullchainWrite p c ∈ (update_elb_try env hosts csr fullchain_path).1 →
      ∃ cert chain, env.issue csr = .ok (cert, chain) ∧
        p = fullchain_path ∧ c = cert ++ chain := by
  have hS := startChallenges_events_shape env hosts
  unfold update_elb_try
  generalize hgen : startChallenges env hosts = pr
  rw [hgen] at hS
  obtain ⟨trS, ars, err⟩ := pr
  have htrS : Event.fullchainWrite p c ∉ trS := by
    intro he
    obtain ⟨z, n, v, hzv⟩ := hS _ he
    cases hzv
  cases err with
  | some e => intro hev; exact absurd hev htrS
  | none =>
    dsimp only
    have hCa := completeChallenges_events_shape env ars
    generalize hgenC : completeChallenges env ars = q
    rw [hgenC] at hCa
    obtain ⟨trC, errC⟩ := q
    have htrC : Event.fullchainWrite p c ∉ trC := by
      intro he
      rcases hCa _ he with ⟨x, hx⟩ | ⟨x, b, hx⟩ | ⟨x, hx⟩ <;> cases hx
    cases errC with
    | some e =>
      dsimp only
      intro hev
      rcases List.mem_append.mp hev with h1 | h2
      · exact absurd h1 htrS
      · exact absurd h2 htrC
    | none =>
      dsimp only
      generalize hr : env.issue csr = r
      cases r with
      | error e =>
        dsimp only
        intro hev
        rcases List.mem_append.mp hev with h1 | h2
        · rcases List.mem_append.mp h1 with h3 | h4
          · exact absurd h3 htrS
          · exact absurd h4 htrC
        · simp only [List.mem_singleton] at h2
          cases h2
      | ok pair =>
        obtain ⟨cert, chain⟩ := pair
        dsimp only
        intro hev
        rcases List.mem_append.mp hev with h1 | h2
        · rcases List.mem_append.mp h1 with h3 | h4
          · exact absurd h3 htrS
          · exact absurd h4 htrC
        · simp only [List.mem_cons, List.not_mem_nil, or_false] at h2
          rcases h2 with h3 | h3
          · cases h3
          · injection h3 with hp hc
            exact ⟨cert, chain, rfl, hp, hc⟩

/-- Helper for the zone-resolution claim: `find_zone_id_for_domain` is
first-match search over the zone list. -/
theorem find_zone_id_eq_find? (domain : String) :
    ∀ zones : List Zone,
      find_zone_id_for_domain zones domain
        = (zones.find? (zoneMatches domain)).map Zone.id := by
  intro zones
  induction zones with
  | nil => rfl
  | cons z rest ih =>
    unfold find_zone_id_for_domain
    cases h : zoneMatches domain z with
    | true => simp [List.find?, h]
    | false => simp [List.find?, h, ih]

/-- C2 (amended): for every zone sequence and domain,
`find_zone_id_for_domain` returns the id of the first zone in
iteration order whose name matches the domain (with the trailing-dot
normalization), not the longest suffix match; it returns not-found
exactly when no zone matches. -/
theorem find_zone_id_first_match (zones : List Zone) (domain : String) :
    find_zone_id_for_domain zones domain
        = (zones.find? (zoneMatches domain)).map Zone.id ∧
    (find_zone_id_for_domain zones domain = none ↔
      ∀ z ∈ zones, zoneMatches domain z = false) := by
  refine ⟨find_zone_id_eq_find? domain zones, ?_⟩
  rw [find_zone_id_eq_find? domain zones]
  simp [List.find?_eq_none]

/-- C2 counterexample: on a visible zone sequence ordered
least-specific first, the code returns the first matching zone (Zcom)
while the longest suffix match among all visible zones is a different
zone (Zex); so zone resolution does not return the longest suffix
match for every zone sequence. -/
theorem find_zone_id_not_longest_match :
    find_zone_id_for_domain czones "foo.example.com" = some "Zcom" ∧
    (resolveLongestMatch czones "foo.example.com").map Zone.id = some "Zex" ∧
    ("Zcom" : String) ≠ "Zex" := by decide

/-- C5: in `complete_dns_challenge`, when local verification returns
true the trace is wait, then the successful local verification, then
the challenge answer (so the proof is submitted only after local
verification has succeeded); when local verification returns false the
call raises the verification error and no answer is ever submitted. -/
theorem complete_dns_challenge_verify_gates_answer (env : Env)
    (ar : AuthorizationRecord) :
    (env.simpleVerify ar.dns_challenge.token ar.host = true →
        (complete_dns_challenge env ar).1
          = [Event.waitRoute53 ar.route53_change_id,
             Event.localVerify ar.host true,
             Event.answerChallenge ar.host]) ∧
    (env.simpleVerify ar.dns_challenge.token ar.host = false →
        (complete_dns_challenge env ar).2 = .error .failedVerification ∧
        Event.answerChallenge ar.host ∉ (complete_dns_challenge env ar).1) := by
  unfold complete_dns_challenge
  generalize env.simpleVerify ar.dns_challenge.token ar.host = v
  cases v with
  | true =>
    refine ⟨fun _ => rfl, fun hfalse => ?_⟩
    cases hfalse
  | false =>
    refine ⟨fun htrue => ?_, fun _ => ⟨rfl, ?_⟩⟩
    · cases htrue
    · simp

/-- C5 witness: with an environment whose local verification fails,
the challenge completion for the concrete record raises the
verification error and never answers the challenge. -/
theorem complete_dns_challenge_verify_gates_answer_witness :
    (complete_dns_challenge cEnvVerifyFail carA).2
        = .error .failedVerification ∧
    Event.answerChallenge "a.example.com"
      ∉ (complete_dns_challenge cEnvVerifyFail carA).1 :=
  (complete_dns_challenge_verify_gates_answer cEnvVerifyFail carA).2 rfl

/-- C6: for every non-empty host list, the CSR built by `generate_csr`
has common name hosts[0], subject alternative names exactly the hosts
in order, and the SAN extension is not critical. -/
theorem generate_csr_cn_san (private_key : String) (hosts : List String)
    (h : hosts ≠ []) :
    ∃ csr, generate_csr private_key hosts = .ok csr ∧
      hosts.head? = some csr.common_name ∧ csr.san = hosts ∧
      csr.san_critical = false := by
  cases hosts with
  | nil => exact absurd rfl h
  | cons h0 t => exact ⟨_, rfl, rfl, rfl, rfl⟩

/-- C6 witness: the theorem evaluated on a concrete two-host list. -/
theorem generate_csr_cn_san_witness :
    (["a.example.com", "b.example.com"] : List String) ≠ [] ∧
    ∃ csr, generate_csr "PEM-rsa" ["a.example.com", "b.example.com"] = .ok csr ∧
      (["a.example.com", "b.example.com"] : List String).head?
          = some csr.common_name ∧
      csr.san = ["a.example.com", "b.example.com"] ∧
      csr.san_critical = false :=
  ⟨by decide, generate_csr_cn_san "PEM-rsa" ["a.example.com", "b.example.com"] (by decide)⟩

/-- C9: given the authorization returned for a host,
`start_dns_challenge` raises the destructuring error whenever the
filtered single-challenge DNS01 combination list does not have exactly
one element (none, or two or more), and any successful run implies the
list had exactly one element. -/
theorem start_dns_challenge_unique_combo (env : Env) (host : String)
    (authz : Authz) (hreq : env.requestChall host = .ok authz) :
    ((find_dns_challenge authz).length ≠ 1 →
        (start_dns_challenge env host).2 = .error .destructureError) ∧
    (∀ ar, (start_dns_challenge env host).2 = .ok ar →
        (find_dns_challenge authz).length = 1) := by
  unfold start_dns_challenge change_txt_record
  rw [hreq]
  dsimp only
  generalize find_dns_challenge authz = fd
  cases fd with
  | nil => exact ⟨fun _ => rfl, fun ar h => absurd h (by simp)⟩
  | cons c cs =>
    cases cs with
    | nil =>
      dsimp only
      generalize env.changeRecord "CREATE" (find_zone_id_for_domain env.zones host)
          (c.vdn host) (quoteTxt (c.validation env.accountKey)) = cr
      cases cr with
      | error e => exact ⟨fun h => absurd rfl h, fun ar h => rfl⟩
      | ok cid => exact ⟨fun h => absurd rfl h, fun ar h => rfl⟩
    | cons c2 cs2 => exact ⟨fun _ => rfl, fun ar h => absurd h (by simp)⟩

/-- C9 witness: an authorization offering two single-challenge DNS01
combinations makes `start_dns_challenge` fail with the destructuring
error. -/
theorem start_dns_challenge_unique_combo_witness :
    (find_dns_challenge cAuthzTwo).length ≠ 1 ∧
    (start_dns_challenge cEnvTwoCombos "a.example.com").2
        = .error .destructureError :=
  ⟨by decide,
   (start_dns_challenge_unique_combo cEnvTwoCombos "a.example.com" cAuthzTwo rfl).1
     (by decide)⟩

/-- C7: every record change transmitted by `change_txt_record` carries
the input value wrapped in literal double quotes, and the CREATE issued
by `start_dns_challenge` for a host uses as record name the validation
domain name the challenge derives from the host, not the host itself. -/
theorem change_txt_record_quoted_and_challenge_name (env : Env)
    (action : String) (zone_id : Option String) (name value host : String)
    (authz : Authz) (c : DnsChallenge)
    (hreq : env.requestChall host = .ok authz)
    (hc : find_dns_challenge authz = [c]) :
    (change_txt_record env action zone_id name value).1
        = [Event.dnsChange action zone_id name ("\"" ++ value ++ "\"")] ∧
    (start_dns_challenge env host).1
        = [Event.dnsChange "CREATE" (find_zone_id_for_domain env.zones host)
            (c.vdn host) (quoteTxt (c.validation env.accountKey))] := by
  refine ⟨rfl, ?_⟩
  unfold start_dns_challenge change_txt_record
  rw [hreq]
  dsimp only
  rw [hc]
  dsimp only
  generalize env.changeRecord "CREATE" (find_zone_id_for_domain env.zones host)
      (c.vdn host) (quoteTxt (c.validation env.accountKey)) = cr
  cases cr with
  | error e => rfl
  | ok cid => rfl

/-- C7 witness: the theorem evaluated on concrete inputs; the
transmitted value is the quoted token and the record name is the
derived validation domain name, not the host. -/
theorem change_txt_record_quoted_witness :
    (change_txt_record cEnv "CREATE" (some "Z1") "rec.example.com" "tokval").1
        = [Event.dnsChange "CREATE" (some "Z1") "rec.example.com" "\"tokval\""] ∧
    (start_dns_challenge cEnv "a.example.com").1
        = [Event.dnsChange "CREATE" (some "Z1") "_ac.a.example.com" "\"val-AK\""] :=
  change_txt_record_quoted_and_challenge_name cEnv "CREATE" (some "Z1")
    "rec.example.com" "tokval" "a.example.com" cAuthz cChall rfl rfl

/-- C4 (amended): the cleanup loop has no per-record exception
handling; when the DELETE call for the first record of the remaining
list raises, that one DELETE upsert is the only one issued, the
exception propagates, and the DELETE upserts for all remaining
accumulated records are not attempted. -/
theorem cleanupRecords_stops_on_failed_delete (env : Env)
    (ar : AuthorizationRecord) (rest : List AuthorizationRecord) (e : Err)
    (h : env.changeRecord "DELETE" ar.route53_zone_id
          (ar.dns_challenge.vdn ar.host)
          (quoteTxt (ar.dns_challenge.validation env.accountKey)) = .error e) :
    cleanupRecords env (ar :: rest) = ([deleteUpsert env ar], some e) := by
  unfold cleanupRecords change_txt_record
  rw [h]
  rfl

/-- C4 witness: the amended theorem evaluated on a concrete
environment whose DELETE calls fail and two concrete records. -/
theorem cleanupRecords_stops_on_failed_delete_witness :
    cleanupRecords cEnvDelFail [carA, carB]
        = ([deleteUpsert cEnvDelFail carA], some (.external "delfail")) :=
  cleanupRecords_stops_on_failed_delete cEnvDelFail carA [carB]
    (.external "delfail") rfl

/-- C4 counterexample: with two accumulated records and a provider
whose DELETE calls raise, cleanup issues only the DELETE for the first
record; the DELETE upsert for the second record is never attempted,
refuting that remaining cleanup entries are always attempted. -/
theorem cleanup_failure_stops_remaining_deletes :
    cleanupRecords cEnvDelFail [carA, carB]
        = ([Event.dnsChange "DELETE" (some "Z1") "_ac.a.example.com" "\"val-AK\""],
           some (.external "delfail")) ∧
    Event.dnsChange "DELETE" (some "Z2") "_ac.b.example.com" "\"val-AK\""
      ∉ (cleanupRecords cEnvDelFail [carA, carB]).1 := by decide

/-- C8 (amended): when zone resolution returns not-found for a host,
`start_dns_challenge` does not raise on the not-found result but
passes the missing zone id straight into the CREATE record call: the
CREATE upsert is issued with zone id none, and whether the flow fails
there depends entirely on the provider response to that call. -/
theorem start_dns_challenge_zone_not_found_passed_on (env : Env)
    (host : String) (authz : Authz) (c : DnsChallenge)
    (hreq : env.requestChall host = .ok authz)
    (hc : find_dns_challenge authz = [c])
    (hz : find_zone_id_for_domain env.zones host = none) :
    (start_dns_challenge env host).1
        = [Event.dnsChange "CREATE" none (c.vdn host)
            (quoteTxt (c.validation env.accountKey))] := by
  unfold start_dns_challenge change_txt_record
  rw [hreq]
  dsimp only
  rw [hc]
  dsimp only
  rw [hz]
  generalize env.changeRecord "CREATE" none (c.vdn host)
      (quoteTxt (c.validation env.accountKey)) = cr
  cases cr with
  | error e => rfl
  | ok cid => rfl

/-- C8 witness: the amended theorem evaluated on a concrete
environment with no matching zone. -/
theorem start_dns_challenge_zone_not_found_passed_on_witness :
    (start_dns_challenge cEnvNoZone "a.example.com").1
        = [Event.dnsChange "CREATE" none "_ac.a.example.com" "\"val-AK\""] :=
  start_dns_challenge_zone_not_found_passed_on cEnvNoZone "a.example.com"
    cAuthz cChall rfl rfl (by decide)

/-- C8 counterexample: with no matching hosted zone and a provider
that accepts the call, `start_dns_challenge` issues the CREATE upsert
with zone id none and succeeds, so the not-found result is silently
passed on instead of failing with a fatal error before any record
creation is attempted. -/
theorem start_dns_challenge_zone_not_found_creates :
    (start_dns_challenge cEnvNoZone "a.example.com").1
        = [Event.dnsChange "CREATE" none "_ac.a.example.com" "\"val-AK\""] ∧
    okZoneId (start_dns_challenge cEnvNoZone "a.example.com").2 = some none := by
  decide

/-- C1 (amended): for every run of `update_elb` in an environment
whose DELETE calls succeed, the DELETE upserts in the trace are
exactly one per accumulated AuthorizationRecord, in order, each
carrying the zone id, validation-domain record name and quoted
validation value of its record; and for every accumulated record the
CREATE upsert with that same zone, name and value tuple is in the
trace. (Unconditionally the count can be lower: a raising cleanup
DELETE aborts the loop, see the counterexample.) -/
theorem update_elb_cleanup_exact_deletes (env : Env) (hosts : List String)
    (key_type fullchain_path privatekey_path : String)
    (hDel : ∀ z n v, ∃ cid, env.changeRecord "DELETE" z n v = .ok cid) :
    (update_elb env hosts key_type fullchain_path privatekey_path).1.filter
        isDeleteUpsert
      = (update_elb_records env hosts key_type fullchain_path).map
          (deleteUpsert env) ∧
    ∀ ar ∈ update_elb_records env hosts key_type fullchain_path,
      createUpsert env ar
        ∈ (update_elb env hosts key_type fullchain_path privatekey_path).1 := by
  unfold update_elb update_elb_records
  by_cases hkt : key_type = "rsa" ∨ key_type = "ecdsa"
  case neg =>
    rw [if_neg hkt, if_neg hkt]
    exact ⟨rfl, by simp⟩
  case pos =>
    rw [if_pos hkt, if_pos hkt]
    dsimp only
    generalize generate_csr (env.genKey key_type) hosts = g
    cases g with
    | error e => exact ⟨rfl, by simp⟩
    | ok csr =>
      dsimp only
      have hrec := update_elb_try_records env hosts csr fullchain_path
      have hnd := update_elb_try_no_delete env hosts csr fullchain_path
      have hmem0 := startChallenges_records_mem env hosts
      have hsub := startChallenges_trace_sub_try env hosts csr fullchain_path
      generalize hT : update_elb_try env hosts csr fullchain_path = T
      rw [hT] at hrec hnd hsub
      obtain ⟨trT, ars, errT⟩ := T
      dsimp only at hrec ⊢
      rw [cleanupRecords_deletes_ok env hDel ars]
      dsimp only
      constructor
      · rw [List.filter_append, List.filter_append]
        have h1 : List.filter isDeleteUpsert
            [Event.keyWrite privatekey_path (env.genKey key_type)] = [] := rfl
        have h2 : trT.filter isDeleteUpsert = [] :=
          List.filter_eq_nil_iff.mpr fun a ha => by simp [hnd a ha]
        have h3 : (ars.map (deleteUpsert env)).filter isDeleteUpsert
            = ars.map (deleteUpsert env) :=
          List.filter_eq_self.mpr fun a ha => by
            obtain ⟨ar, _, hmap⟩ := List.mem_map.mp ha
            subst hmap
            rfl
        rw [h2, h3]
        rfl
      · intro ar har
        rw [hrec] at har
        have hinS := hmem0 ar har
        have hinT := hsub _ hinS
        simp only [List.mem_append]
        left
        right
        exact hinT

/-- C1 witness: a concrete two-host run whose second challenge request
fails after one record was accumulated: the trace contains exactly the
one matching DELETE upsert. -/
theorem update_elb_cleanup_exact_deletes_witness :
    (update_elb cEnvReqFail ["a.example.com", "b.example.com"] "rsa" "fc"
        "pk").1.filter isDeleteUpsert
      = (update_elb_records cEnvReqFail ["a.example.com", "b.example.com"]
          "rsa" "fc").map (deleteUpsert cEnvReqFail) :=
  (update_elb_cleanup_exact_deletes cEnvReqFail
    ["a.example.com", "b.example.com"] "rsa" "fc" "pk"
    (fun _ _ _ => ⟨"CID", rfl⟩)).1

/-- C1 counterexample: a concrete two-host run of `update_elb` that
accumulates two AuthorizationRecords but whose DELETE calls raise: the
cleanup loop aborts after its first DELETE upsert, so only one DELETE
upsert is issued for the two accumulated records, refuting that the
cleanup phase issues exactly N DELETE upserts in every run. -/
theorem update_elb_cleanup_fewer_deletes :
    (update_elb_records cEnvDelFail ["a.example.com", "b.example.com"]
        "rsa" "fc").length = 2 ∧
    ((update_elb cEnvDelFail ["a.example.com", "b.example.com"] "rsa" "fc"
        "pk").1.filter isDeleteUpsert).length = 1 := by decide

/-- C3 (amended): when `update_elb` raises for one domain entry, the
loop in `update_elbs` stops: the run propagates that error with
exactly the failing entry trace (whose tail is that entry cleanup
phase), and no later domain entry is processed. -/
theorem update_elbs_stops_after_cleanup (env : Env) (d : DomainEntry)
    (rest : List DomainEntry) (fullchain_path privatekey_path : String)
    (e : Err)
    (h : (update_elb env d.hosts (d.key_type.getD "rsa") fullchain_path
            privatekey_path).2 = .error e) :
    update_elbs env (d :: rest) fullchain_path privatekey_path
        = ((update_elb env d.hosts (d.key_type.getD "rsa") fullchain_path
              privatekey_path).1, .error e) ∧
    ∃ before,
      (update_elb env d.hosts (d.key_type.getD "rsa") fullchain_path
          privatekey_path).1
        = before ++ (cleanupRecords env (update_elb_records env d.hosts
            (d.key_type.getD "rsa") fullchain_path)).1 := by
  constructor
  · unfold update_elbs
    generalize hu : update_elb env d.hosts (d.key_type.getD "rsa")
        fullchain_path privatekey_path = u
    rw [hu] at h
    obtain ⟨tr, r⟩ := u
    dsimp only at h
    subst h
    rfl
  · unfold update_elb update_elb_records
    by_cases hkt : d.key_type.getD "rsa" = "rsa" ∨ d.key_type.getD "rsa" = "ecdsa"
    case neg =>
      rw [if_neg hkt, if_neg hkt]
      exact ⟨[], by simp [cleanupRecords]⟩
    case pos =>
      rw [if_pos hkt, if_pos hkt]
      dsimp only
      generalize generate_csr (env.genKey (d.key_type.getD "rsa")) d.hosts = g
      cases g with
      | error e2 => exact ⟨[Event.keyWrite privatekey_path
          (env.genKey (d.key_type.getD "rsa"))], by simp [cleanupRecords]⟩
      | ok csr =>
        dsimp only
        generalize hT : update_elb_try env d.hosts csr fullchain_path = T
        obtain ⟨trT, ars, errT⟩ := T
        dsimp only
        generalize hC : cleanupRecords env ars = C
        obtain ⟨trC, errC⟩ := C
        dsimp only
        exact ⟨[Event.keyWrite privatekey_path
          (env.genKey (d.key_type.getD "rsa"))] ++ trT, by simp⟩

/-- C3 witness: the amended theorem evaluated on a concrete run whose
first domain entry has an unsupported key type. -/
theorem update_elbs_stops_after_cleanup_witness :
    update_elbs cEnv [dBad, dGood] "fc" "pk"
        = ((update_elb cEnv dBad.hosts (dBad.key_type.getD "rsa") "fc"
              "pk").1, .error (.invalidKeyType "dsa")) :=
  (update_elbs_stops_after_cleanup cEnv dBad [dGood] "fc" "pk"
    (.invalidKeyType "dsa") rfl).1

/-- C3 counterexample: a fatal error for the first domain entry stops
the whole run with an empty trace, although the second domain entry,
processed alone, performs visible work; so processing does not
continue with subsequent domain entries. -/
theorem update_elbs_error_stops_run :
    update_elbs cEnv [dBad, dGood] "fc" "pk"
        = ([], .error (.invalidKeyType "dsa")) ∧
    (update_elbs cEnv [dGood] "fc" "pk").1 ≠ [] :=
  ⟨rfl, by decide⟩

/-- C10 (amended): for every valid key type, the run of `update_elb`
writes the freshly generated private key to privatekey_path as its
first visible action (hence before any challenge request or DNS
record creation); and fullchain_path is written only with the
leaf-plus-chain content of a successful certificate issuance. A run
can still fail during cleanup after a successful issuance, with
fullchain_path already written. -/
theorem update_elb_write_order (env : Env) (hosts : List String)
    (key_type fullchain_path privatekey_path : String)
    (hkt : key_type = "rsa" ∨ key_type = "ecdsa") :
    (∃ rest, (update_elb env hosts key_type fullchain_path privatekey_path).1
        = Event.keyWrite privatekey_path (env.genKey key_type) :: rest) ∧
    (∀ p c, Event.fullchainWrite p c
        ∈ (update_elb env hosts key_type fullchain_path privatekey_path).1 →
      ∃ csr cert chain, generate_csr (env.genKey key_type) hosts = .ok csr ∧
        env.issue csr = .ok (cert, chain) ∧
        p = fullchain_path ∧ c = cert ++ chain) := by
  unfold update_elb
  rw [if_pos hkt]
  dsimp only
  generalize hg : generate_csr (env.genKey key_type) hosts = g
  cases g with
  | error e =>
    constructor
    · exact ⟨[], rfl⟩
    · intro p c hmem
      simp only [List.mem_singleton] at hmem
      cases hmem
  | ok csr =>
    dsimp only
    have hfc := update_elb_try_fullchain env hosts csr fullchain_path
    have hclean := cleanupRecords_events_shape env
    generalize hT : update_elb_try env hosts csr fullchain_path = T
    rw [hT] at hfc
    obtain ⟨trT, ars, errT⟩ := T
    have hcl := hclean ars
    generalize hC : cleanupRecords env ars = C
    rw [hC] at hcl
    obtain ⟨trC, errC⟩ := C
    dsimp only
    constructor
    · exact ⟨trT ++ trC, by simp⟩
    · intro p c hmem
      simp only [List.mem_append, List.mem_singleton, List.mem_cons,
        List.not_mem_nil, or_false] at hmem
      rcases hmem with (h1 | h2) | h3
      · cases h1
      · obtain ⟨cert, chain, hi, hp, hc2⟩ := hfc p c h2
        exact ⟨csr, cert, chain, rfl, hi, hp, hc2⟩
      · obtain ⟨z, n, v, hz⟩ := hcl _ h3
        cases hz

/-- C10 witness: the amended theorem evaluated on a fully successful
concrete run: its trace starts with the private-key write. -/
theorem update_elb_write_order_witness :
    ∃ rest, (update_elb cEnv ["a.example.com"] "rsa" "fc" "pk").1
        = Event.keyWrite "pk" (cEnv.genKey "rsa") :: rest :=
  (update_elb_write_order cEnv ["a.example.com"] "rsa" "fc" "pk"
    (Or.inl rfl)).1

/-- C10 counterexample: a run whose only failure is the DELETE during
cleanup, after issuance already succeeded: the run of `update_elb`
fails, yet fullchain_path has been written, refuting that every
failing run leaves fullchain_path unchanged. -/
theorem update_elb_cleanup_failure_after_write :
    (update_elb cEnvDelFail ["a.example.com"] "rsa" "fc" "pk").2
        = .error (.external "delfail") ∧
    Event.fullchainWrite "fc" "CERTCHAIN"
      ∈ (update_elb cEnvDelFail ["a.example.com"] "rsa" "fc" "pk").1 :=
  ⟨rfl, by decide⟩
